import Mathlib

/-!
Verification of the source-materialization and file-indexing pipeline of the
documentation-generator repository (backend/source_utils.py and
backend/summarizer_modal.py), as a shallow embedding in Lean 4.

Modelling conventions:
- Paths and file contents are Lean `String`s (the deployment host is Linux, so
  `os.path.relpath` produces forward-slash relative paths and
  `fnmatch.fnmatch`'s `os.path.normcase` is the identity, i.e. matching is
  case-sensitive).
- The `os.walk` enumeration underneath `index_files` is modelled as an input
  list of `FSFile` records in an arbitrary order, each carrying the relative
  path, the size reported by `os.path.getsize` (with a flag for the rare
  `OSError` that makes the file skipped), and the text content used for the
  preview re-read.
- Fallible operations return `Except String _`; a raised Python exception is
  the `.error` constructor, so an erroring call produces no output value at
  all (no partial result).
-/

set_option maxRecDepth 8000

namespace DocGen

/-! ### Python `fnmatch` semantics

`fnmatch.translate` turns a pattern into a regular expression:
`*` becomes `.*` (matches any sequence of characters, `/` included),
`?` becomes `.` (any single character, `/` included), and `[...]` becomes a
regex character class (leading `!` negates; a `]` right after the opening
`[`/`[!` is a literal member; an unterminated `[` is a literal `[`;
`a-b` inside a class is a codepoint range). Every other character matches
itself literally. We embed that translation directly as a matcher on
character lists. -/

/-- Scan the characters of a class body up to the closing `]`.
Returns the class members and the remainder of the pattern, or `none`
when the class is unterminated. -/
def scanClass : List Char → Option (List Char × List Char)
  | [] => none
  | c :: rest =>
    if c = ']' then some ([], rest)
    else
      match scanClass rest with
      | none => none
      | some (cls, r) => some (c :: cls, r)

/-- Parse a character class starting just after `[`: an optional leading `!`
negates, and a `]` in the first member position is a literal member. -/
def parseClass (ps : List Char) : Option (Bool × List Char × List Char) :=
  match ps with
  | '!' :: ']' :: rest =>
    match scanClass rest with
    | none => none
    | some (cls, r) => some (true, ']' :: cls, r)
  | '!' :: rest =>
    match scanClass rest with
    | none => none
    | some (cls, r) => some (true, cls, r)
  | ']' :: rest =>
    match scanClass rest with
    | none => none
    | some (cls, r) => some (false, ']' :: cls, r)
  | rest =>
    match scanClass rest with
    | none => none
    | some (cls, r) => some (false, cls, r)

/-- Membership of a character in a class body: `a-b` denotes a codepoint
range, every other member is literal (mirrors the regex class emitted by
`fnmatch.translate`). -/
def inClass : List Char → Char → Bool
  | a :: '-' :: b :: rest, c =>
    (decide (a ≤ c) && decide (c ≤ b)) || inClass rest c
  | a :: rest, c => a == c || inClass rest c
  | [], _ => false

/-- Matcher for Python `fnmatch` patterns over character lists: `fnmatchGo
fuel pat name` holds when `name` matches `pat`. `*` matches any sequence of
characters (slashes included), `?` matches any single character, `[...]`
matches one character via `parseClass`/`inClass`, and everything else is
literal. The `fuel` argument only makes the recursion structural (and hence
kernel-evaluable): every recursive call strictly shrinks
`pat.length + name.length` (for the class case by `parseClass_length`), so
starting the fuel above that sum makes the zero-fuel branch unreachable. -/
def fnmatchGo : Nat → List Char → List Char → Bool
  | 0, _, _ => false
  | fuel + 1, p, s =>
    match p, s with
    | [], s => s.isEmpty
    | '*' :: ps, s =>
      fnmatchGo fuel ps s ||
        match s with
        | [] => false
        | _ :: s' => fnmatchGo fuel ('*' :: ps) s'
    | '?' :: ps, s =>
      match s with
      | [] => false
      | _ :: s' => fnmatchGo fuel ps s'
    | '[' :: ps, s =>
      match parseClass ps with
      | none =>
        match s with
        | [] => false
        | c :: s' => '[' == c && fnmatchGo fuel ps s'
      | some (neg, cls, rest) =>
        match s with
        | [] => false
        | c :: s' => (inClass cls c != neg) && fnmatchGo fuel rest s'
    | p₀ :: ps, s =>
      match s with
      | [] => false
      | c :: s' => p₀ == c && fnmatchGo fuel ps s'

/-- Python `fnmatch.fnmatch(name, pat)` on a Linux host (where
`os.path.normcase` is the identity, so matching is case-sensitive). -/
def fnmatch (name pat : String) : Bool :=
  fnmatchGo (pat.data.length + name.data.length + 1) pat.data name.data

/-- Embeds the predicate used at source_utils.py lines 219 and 223-225:
`any(fnmatch.fnmatch(rel_path, pat) for pat in globs)`. -/
def matchesAny (relPath : String) (globs : List String) : Bool :=
  globs.any (fun pat => fnmatch relPath pat)

/-! ### Shell-style (path-aware) glob, modelled from the spec's words

Spec §4.1: "shell-style glob semantics (`*`, `**`, `?`, character classes),
case-sensitive, patterns and paths always using forward slashes". Listing
`**` as a construct distinct from `*` is path-aware glob: `*` and `?` match
within one path segment (never `/`), while `**` matches across segments.
This definition exists only to be compared against the `fnmatch`-based
predicate the code actually uses. -/

/-- Path-aware glob matcher written from the spec's words: `?` and `*` do not
cross `/`, `**` matches any sequence including `/`, character classes match
one non-slash character. Fuel as in `fnmatchGo`. -/
def specGlobGo : Nat → List Char → List Char → Bool
  | 0, _, _ => false
  | fuel + 1, p, s =>
    match p, s with
    | [], s => s.isEmpty
    | '*' :: '*' :: ps, s =>
      specGlobGo fuel ps s ||
        match s with
        | [] => false
        | _ :: s' => specGlobGo fuel ('*' :: '*' :: ps) s'
    | '*' :: ps, s =>
      specGlobGo fuel ps s ||
        match s with
        | [] => false
        | c :: s' => c != '/' && specGlobGo fuel ('*' :: ps) s'
    | '?' :: ps, s =>
      match s with
      | [] => false
      | c :: s' => c != '/' && specGlobGo fuel ps s'
    | '[' :: ps, s =>
      match parseClass ps with
      | none =>
        match s with
        | [] => false
        | c :: s' => '[' == c && specGlobGo fuel ps s'
      | some (neg, cls, rest) =>
        match s with
        | [] => false
        | c :: s' => c != '/' && (inClass cls c != neg) && specGlobGo fuel rest s'
    | p₀ :: ps, s =>
      match s with
      | [] => false
      | c :: s' => p₀ == c && specGlobGo fuel ps s'

/-- Shell-style glob match of one relative path against one pattern, written
from the spec's words (compare `fnmatch`, written from the source). -/
def specGlobMatch (relPath pat : String) : Bool :=
  specGlobGo (pat.data.length + relPath.data.length + 1) pat.data relPath.data

/-- Spec §4.1 contract `matches(relativePath, patterns)`: true if the path
matches at least one pattern under shell-style glob semantics. -/
def specMatchesAny (relPath : String) (globs : List String) : Bool :=
  globs.any (fun pat => specGlobMatch relPath pat)

/-! ### File indexing (source_utils.py, `index_files`, lines 180-265) -/

/-- One regular file seen by the `os.walk` loop: its path relative to `root`
(as computed by `os.path.relpath`), the size `os.path.getsize` reports
(`sizeReadable = false` models the `OSError` branch that skips the file), and
the text content the preview re-read at lines 252-258 would return. -/
structure FSFile where
  path : String
  size : Nat
  sizeReadable : Bool := true
  content : String := ""
deriving DecidableEq, Repr

/-- One element of the listing `index_files` returns:
`{"path": ..., "size": ..., "preview": ...}` (line 262). -/
structure FileEntry where
  path : String
  size : Nat
  preview : String
deriving DecidableEq, Repr

/-- Builds the output dict for one retained candidate; the preview is the
`f.read(200)` peek of lines 252-258 (`errors="ignore"` decoding and the
`except` fallback to `""` are absorbed into `content`). -/
def toEntry (f : FSFile) : FileEntry :=
  { path := f.path, size := f.size, preview := f.content.take 200 }

/-- Python's `<` on strings: lexicographic by Unicode codepoint. -/
def charListLt : List Char → List Char → Bool
  | [], [] => false
  | [], _ :: _ => true
  | _ :: _, [] => false
  | a :: as, b :: bs =>
    if a < b then true
    else if b < a then false
    else charListLt as bs

/-- Codepoint-lexicographic comparison of two paths, as Python compares the
first components of the candidate tuples. -/
def pathLt (a b : String) : Bool :=
  charListLt a.data b.data

/-- Python's ascending comparison on the candidate tuples
`(rel_path, size)`: lexicographic, strings by codepoint, sizes numerically. -/
def fileLe (a b : FSFile) : Bool :=
  pathLt a.path b.path || (a.path == b.path && decide (a.size ≤ b.size))

/-- The per-file filter of the walk loop (lines 219-233): skip when any
exclude glob matches; skip when the include list is nonempty and no include
glob matches; skip when `os.path.getsize` fails. -/
def passesFilters (includeGlobs excludeGlobs : List String) (f : FSFile) : Bool :=
  if matchesAny f.path excludeGlobs then false
  else if !includeGlobs.isEmpty && !matchesAny f.path includeGlobs then false
  else f.sizeReadable

/-- Insert into an already sorted list, keeping earlier elements first on
ties (stable, like Python's `list.sort`). -/
def insertSorted (f : FSFile) : List FSFile → List FSFile
  | [] => [f]
  | g :: rest => if fileLe f g then f :: g :: rest else g :: insertSorted f rest

/-- Stable ascending sort of the candidate list, modelling
`candidates.sort()` at line 238. -/
def sortFiles : List FSFile → List FSFile
  | [] => []
  | f :: rest => insertSorted f (sortFiles rest)

/-- The cap-enforcing output loop (lines 240-263): walk the sorted
candidates with the running count of appended entries and the running byte
total; stop at the first candidate that would push the count past
`maxFiles` or the byte total strictly past `maxBytes`. -/
def buildCapped (maxFiles maxBytes : Nat) :
    List FSFile → Nat → Nat → List FileEntry
  | [], _, _ => []
  | f :: rest, count, total =>
    if maxFiles ≤ count then []
    else if maxBytes < total + f.size then []
    else toEntry f :: buildCapped maxFiles maxBytes rest (count + 1) (total + f.size)

/-- Embedding of `index_files(root, include_globs, exclude_globs, max_files,
max_bytes)`: filter the walked files by the glob and size checks, sort the
candidates, then build the capped output list starting from zero count and
zero total. -/
def index_files (walk : List FSFile) (includeGlobs excludeGlobs : List String)
    (maxFiles maxBytes : Nat) : List FileEntry :=
  buildCapped maxFiles maxBytes
    (sortFiles (walk.filter (passesFilters includeGlobs excludeGlobs))) 0 0

/-! ### Bundle reading (source_utils.py, `read_selected_bundle`, lines 273-303)

The directory under `root` is modelled as an association list from relative
path to text content; a path present in the list is an existing regular file
(`os.path.isfile` true), any other path is not. A raised
`FileNotFoundError` is the `.error` constructor, carrying the exception
message. -/

/-- Looks up a relative path in the modelled directory tree: `some content`
when `root/rel` is an existing regular file, `none` otherwise. -/
def lookupFile (fs : List (String × String)) (rel : String) : Option String :=
  match fs.find? (fun p => p.1 == rel) with
  | none => none
  | some p => some p.2

/-- The loop body of `read_selected_bundle` (lines 295-302): visit the
selected paths in caller order; raise `FileNotFoundError("Missing file
{rel}")` at the first path that is not an existing regular file; otherwise
collect `"# === {rel} ===\n{content}\n"` blocks. -/
def readBundleBlocks (fs : List (String × String)) :
    List String → Except String (List String)
  | [] => .ok []
  | rel :: rest =>
    match lookupFile fs rel with
    | none => .error ("Missing file " ++ rel)
    | some content =>
      match readBundleBlocks fs rest with
      | .error e => .error e
      | .ok blocks =>
        .ok (("# === " ++ rel ++ " ===\n" ++ content ++ "\n") :: blocks)

/-- Embedding of `read_selected_bundle(root, selected_paths)`: the per-file
blocks joined by `"\n".join(parts)` (line 303), or the first
`FileNotFoundError`. -/
def read_selected_bundle (fs : List (String × String))
    (selectedPaths : List String) : Except String String :=
  match readBundleBlocks fs selectedPaths with
  | .error e => .error e
  | .ok blocks => .ok (String.intercalate "\n" blocks)

/-! ### Per-request directory cleanup and session teardown
(summarizer_modal.py, `prepare` lines 522-709 and `summarize` lines 760-792)

The shared volume is modelled as a list of paths, each path a list of
components (so `/data/src-x/zip/archive.zip` is
`["data", "src-x", "zip", "archive.zip"]`).  `shutil.rmtree(p)` removes `p`
and every path that has `p` as a component prefix. -/

/-- A path lies in the tree rooted at `root` when `root` is a component
prefix of it (including `root` itself). -/
def underRoot (root p : List String) : Bool :=
  root.isPrefixOf p

/-- Models `shutil.rmtree(root, ignore_errors=True)`: every path in the
subtree rooted at `root` disappears from the volume. -/
def rmtree (root : List String) (vol : List (List String)) : List (List String) :=
  vol.filter (fun p => !underRoot root p)

/-- Models the tail of `prepare` (summarizer_modal.py lines 524-709):
`os.makedirs(work_root)` adds the per-request directory, materialization and
indexing add further paths (`created`) and either produce the response or
raise; both `except` branches (lines 700-709) run
`shutil.rmtree(work_root, ignore_errors=True)` before re-raising, so a
failure removes the whole per-request subtree and still surfaces the error. -/
def prepare_outcome (vol : List (List String)) (workRoot : List String)
    (created : List (List String)) (result : Except String (List FileEntry)) :
    Except String (List FileEntry) × List (List String) :=
  let volAfter := vol ++ workRoot :: created
  match result with
  | .ok files => (.ok files, volAfter)
  | .error e => (.error e, rmtree workRoot volAfter)

/-- The per-session working directory `/data/<source_id>`
(summarizer_modal.py line 523 and line 766). -/
def workRootOf (sourceId : String) : List String :=
  ["data", sourceId]

/-- The manifest written at line 691:
`/data/<source_id>/manifest.json`. -/
def manifestPathOf (sourceId : String) : List String :=
  ["data", sourceId, "manifest.json"]

/-- Models the session lookup of `summarize` (lines 766-772): the session
resolves when `os.path.isfile(manifest_path)` holds, otherwise the endpoint
raises 400 "unknown source_id or expired". -/
def resolve_session (vol : List (List String)) (sourceId : String) :
    Except String Unit :=
  if manifestPathOf sourceId ∈ vol then .ok ()
  else .error "unknown source_id or expired"

/-- Models the `cleanup` branch of `summarize` (lines 790-792):
`shutil.rmtree(work_root, ignore_errors=True)` followed by
`volume.commit()`. -/
def destroy_session (vol : List (List String)) (sourceId : String) :
    List (List String) :=
  rmtree (workRootOf sourceId) vol

/-! ### Termination bound for the class scanner, and concrete sanity checks -/

theorem scanClass_length : ∀ (l cls r : List Char),
    scanClass l = some (cls, r) → r.length < l.length := by
  intro l
  induction l with
  | nil => intro cls r h; simp [scanClass] at h
  | cons c rest ih =>
    intro cls r h
    simp only [scanClass] at h
    split at h
    · cases h
      simp
    · cases hsc : scanClass rest with
      | none => rw [hsc] at h; cases h
      | some p =>
        obtain ⟨cls', r'⟩ := p
        rw [hsc] at h
        cases h
        have := ih _ _ hsc
        simpa using Nat.lt_succ_of_lt this

theorem parseClass_length : ∀ (ps : List Char) (neg : Bool) (cls r : List Char),
    parseClass ps = some (neg, cls, r) → r.length ≤ ps.length := by
  intro ps neg cls r h
  unfold parseClass at h
  split at h
  all_goals
    first
    | (split at h
       · cases h
       · rename_i hsc
         cases h
         have := scanClass_length _ _ _ hsc
         simp_all
         omega)

example : fnmatch "a.py" "*.py" = true := by decide
example : fnmatch "a/b.py" "*.py" = true := by decide
example : fnmatch "a/b.py" "**/*.py" = true := by decide
example : fnmatch "b.py" "**/*.py" = false := by decide
example : fnmatch "A.py" "a*" = false := by decide
example : fnmatch "a.txt" "a.???" = true := by decide
example : fnmatch "a.py" "[ab].py" = true := by decide
example : fnmatch "c.py" "[ab].py" = false := by decide
example : fnmatch "c.py" "[!ab].py" = true := by decide
example : fnmatch "m.py" "[a-z].py" = true := by decide
example : fnmatch ".git/config" "**/.git/**" = false := by decide
example : fnmatch "src/.git/config" "**/.git/**" = true := by decide
example : matchesAny "x.log" ["*.py", "*.log"] = true := by decide
example : matchesAny "x.log" [] = false := by decide

example : specGlobMatch "a.py" "*.py" = true := by decide
example : specGlobMatch "a/b.py" "*.py" = false := by decide
example : specGlobMatch "a/b.py" "**/*.py" = true := by decide
example : specGlobMatch "a/b/c.py" "**/*.py" = true := by decide
example : specGlobMatch "a/b.py" "?/b.py" = true := by decide
example : specGlobMatch "ab/b.py" "?" = false := by decide

example :
    index_files [⟨"b.txt", 4, true, "bbbb"⟩, ⟨"a.txt", 6, true, "aaaaaa"⟩]
      [] [] 500 20000000 =
    [⟨"a.txt", 6, "aaaaaa"⟩, ⟨"b.txt", 4, "bbbb"⟩] := by decide

example :
    index_files [⟨"a.txt", 6, true, ""⟩, ⟨"b.txt", 4, true, ""⟩] [] [] 500 10
      = [⟨"a.txt", 6, ""⟩, ⟨"b.txt", 4, ""⟩] := by decide

example :
    index_files [⟨"a.txt", 6, true, ""⟩, ⟨"b.txt", 4, true, ""⟩] [] [] 500 9
      = [⟨"a.txt", 6, ""⟩] := by decide

example :
    index_files [⟨"a.py", 3, true, ""⟩, ⟨"b.md", 3, true, ""⟩] ["*.py"] []
      500 100 = [⟨"a.py", 3, ""⟩] := by decide

example :
    index_files [⟨"a.py", 3, true, ""⟩, ⟨"b.py", 3, true, ""⟩] [] ["b*"]
      500 100 = [⟨"a.py", 3, ""⟩] := by decide

example :
    read_selected_bundle [("a.txt", "X"), ("b.txt", "Y")] ["a.txt", "b.txt"]
      = .ok "# === a.txt ===\nX\n\n# === b.txt ===\nY\n" := rfl

example :
    read_selected_bundle [("a.txt", "hi")] ["a.txt", "b.txt"]
      = .error "Missing file b.txt" := rfl

example :
    read_selected_bundle [("a.txt", "hi")] [] = .ok "" := rfl

example :
    resolve_session [manifestPathOf "src-1"] "src-1" = .ok () := rfl

example :
    resolve_session (destroy_session [manifestPathOf "src-1"] "src-1") "src-1"
      = .error "unknown source_id or expired" := rfl

/-! ### Order facts about the candidate comparison -/

theorem charListLt_iff : ∀ (x y : List Char),
    charListLt x y = true ↔ List.Lex (· < ·) x y
  | [], [] => by
    simp only [charListLt, Bool.false_eq_true, false_iff]
    exact List.Lex.not_nil_right _ _
  | [], _ :: _ => by
    simp only [charListLt, true_iff]
    exact List.Lex.nil
  | _ :: _, [] => by
    simp only [charListLt, Bool.false_eq_true, false_iff]
    exact List.Lex.not_nil_right _ _
  | a :: as, b :: bs => by
    simp only [charListLt]
    by_cases hab : a < b
    · simp only [hab, if_true, true_iff]
      exact List.Lex.rel hab
    · by_cases hba : b < a
      · simp only [hab, hba, if_true, if_false, Bool.false_eq_true, false_iff]
        intro h
        cases h with
        | rel h' => exact hab h'
        | cons h' => exact lt_irrefl a hba
      · have heq : a = b := le_antisymm (le_of_not_lt hba) (le_of_not_lt hab)
        subst heq
        simp only [hab, if_false, if_neg hab]
        rw [List.Lex.cons_iff]
        exact charListLt_iff as bs

theorem pathLt_iff (a b : String) : pathLt a b = true ↔ a < b := by
  rw [String.lt_iff_toList_lt]
  exact charListLt_iff a.data b.data

theorem fileLe_iff (a b : FSFile) :
    fileLe a b = true ↔ a.path < b.path ∨ (a.path = b.path ∧ a.size ≤ b.size) := by
  simp [fileLe, pathLt_iff]

theorem fileLe_trans {a b c : FSFile} (hab : fileLe a b = true)
    (hbc : fileLe b c = true) : fileLe a c = true := by
  rw [fileLe_iff] at hab hbc ⊢
  rcases hab with h1 | ⟨e1, s1⟩ <;> rcases hbc with h2 | ⟨e2, s2⟩
  · exact Or.inl (h1.trans h2)
  · exact Or.inl (e2 ▸ h1)
  · exact Or.inl (e1 ▸ h2)
  · exact Or.inr ⟨e1.trans e2, s1.trans s2⟩

theorem fileLe_total (a b : FSFile) : fileLe a b = true ∨ fileLe b a = true := by
  rw [fileLe_iff, fileLe_iff]
  rcases lt_trichotomy a.path b.path with h | h | h
  · exact Or.inl (Or.inl h)
  · rcases Nat.le_total a.size b.size with hs | hs
    · exact Or.inl (Or.inr ⟨h, hs⟩)
    · exact Or.inr (Or.inr ⟨h.symm, hs⟩)
  · exact Or.inr (Or.inl h)

theorem fileLe_path_le {a b : FSFile} (h : fileLe a b = true) :
    a.path ≤ b.path := by
  rw [fileLe_iff] at h
  rcases h with h | ⟨h, _⟩
  · exact le_of_lt h
  · exact le_of_eq h

/-! ### Sorting lemmas -/

theorem mem_insertSorted {x f : FSFile} : ∀ {l : List FSFile},
    x ∈ insertSorted f l ↔ x = f ∨ x ∈ l := by
  intro l
  induction l with
  | nil => simp [insertSorted]
  | cons g rest ih =>
    simp only [insertSorted]
    split
    · simp [or_comm, or_assoc, or_left_comm]
    · simp only [List.mem_cons, ih]
      tauto

theorem pairwise_insertSorted {f : FSFile} : ∀ {l : List FSFile},
    l.Pairwise (fun a b => fileLe a b = true) →
    (insertSorted f l).Pairwise (fun a b => fileLe a b = true) := by
  intro l
  induction l with
  | nil => intro _; simp [insertSorted]
  | cons g rest ih =>
    intro hp
    rw [List.pairwise_cons] at hp
    obtain ⟨hg, hrest⟩ := hp
    simp only [insertSorted]
    split
    · rename_i hfg
      rw [List.pairwise_cons]
      constructor
      · intro x hx
        rcases List.mem_cons.mp hx with rfl | hx'
        · exact hfg
        · exact fileLe_trans hfg (hg x hx')
      · rw [List.pairwise_cons]
        exact ⟨hg, hrest⟩
    · rename_i hfg
      have hgf : fileLe g f = true := by
        rcases fileLe_total f g with h | h
        · exact absurd h hfg
        · exact h
      rw [List.pairwise_cons]
      constructor
      · intro x hx
        rcases mem_insertSorted.mp hx with rfl | hx'
        · exact hgf
        · exact hg x hx'
      · exact ih hrest

theorem pairwise_sortFiles : ∀ (l : List FSFile),
    (sortFiles l).Pairwise (fun a b => fileLe a b = true)
  | [] => by simp [sortFiles]
  | f :: rest => by
    simp only [sortFiles]
    exact pairwise_insertSorted (pairwise_sortFiles rest)

theorem mem_sortFiles {x : FSFile} : ∀ {l : List FSFile},
    x ∈ sortFiles l ↔ x ∈ l := by
  intro l
  induction l with
  | nil => simp [sortFiles]
  | cons f rest ih =>
    simp only [sortFiles, mem_insertSorted, ih, List.mem_cons]

/-! ### Cap-loop lemmas -/

theorem buildCapped_length (mf mb : Nat) : ∀ (l : List FSFile) (c t : Nat),
    (buildCapped mf mb l c t).length ≤ mf - c := by
  intro l
  induction l with
  | nil => intro c t; simp [buildCapped]
  | cons f rest ih =>
    intro c t
    simp only [buildCapped]
    split
    · simp
    · split
      · simp
      · rename_i hcount _
        have := ih (c + 1) (t + f.size)
        simp only [List.length_cons]
        omega

theorem buildCapped_sum (mf mb : Nat) : ∀ (l : List FSFile) (c t : Nat),
    ((buildCapped mf mb l c t).map FileEntry.size).sum ≤ mb - t := by
  intro l
  induction l with
  | nil => intro c t; simp [buildCapped]
  | cons f rest ih =>
    intro c t
    simp only [buildCapped]
    split
    · simp
    · split
      · simp
      · rename_i _ hsize
        have := ih (c + 1) (t + f.size)
        simp only [List.map_cons, List.sum_cons, toEntry]
        omega

theorem buildCapped_eq_take (mf mb : Nat) : ∀ (l : List FSFile) (c t : Nat),
    ∃ k, buildCapped mf mb l c t = (l.take k).map toEntry := by
  intro l
  induction l with
  | nil => intro c t; exact ⟨0, by simp [buildCapped]⟩
  | cons f rest ih =>
    intro c t
    simp only [buildCapped]
    split
    · exact ⟨0, by simp⟩
    · split
      · exact ⟨0, by simp⟩
      · obtain ⟨k, hk⟩ := ih (c + 1) (t + f.size)
        exact ⟨k + 1, by simp [hk]⟩

theorem mem_buildCapped {mf mb : Nat} {l : List FSFile} {c t : Nat}
    {e : FileEntry} (he : e ∈ buildCapped mf mb l c t) :
    ∃ f ∈ l, e = toEntry f := by
  obtain ⟨k, hk⟩ := buildCapped_eq_take mf mb l c t
  rw [hk] at he
  obtain ⟨f, hf, rfl⟩ := List.mem_map.mp he
  exact ⟨f, (List.Sublist.mem hf (List.take_sublist k l)), rfl⟩

/-! ### The claims -/

/-- C1 counterexample: with `maxBytes = 10` and candidate files of sizes 6
and 4 (both passing the filters, in sorted order), the claim says only the
6-byte file is returned; the code returns both, because `6 + 4 = 10` does
not satisfy the strict breach test `total + size > max_bytes` at
source_utils.py line 247. -/
theorem c1_counterexample :
    (index_files [⟨"a.txt", 6, true, ""⟩, ⟨"b.txt", 4, true, ""⟩]
        [] [] 500 10).map FileEntry.path = ["a.txt", "b.txt"] ∧
    (index_files [⟨"a.txt", 6, true, ""⟩, ⟨"b.txt", 4, true, ""⟩]
        [] [] 500 10).map FileEntry.path ≠ ["a.txt"] := by
  constructor
  · decide
  · decide

/-- C1 (amended): with `maxBytes = 10` and candidate files of sizes 6 and 4
in sorted order both files are returned, since the running total `10` does
not strictly exceed the cap; enumeration halts only at the first addition
that would strictly exceed `maxBytes`, e.g. with `maxBytes = 9` only the
6-byte file is returned. -/
theorem c1_cap_boundary :
    (index_files [⟨"a.txt", 6, true, ""⟩, ⟨"b.txt", 4, true, ""⟩]
        [] [] 500 10).map FileEntry.path = ["a.txt", "b.txt"] ∧
    (index_files [⟨"a.txt", 6, true, ""⟩, ⟨"b.txt", 4, true, ""⟩]
        [] [] 500 9).map FileEntry.path = ["a.txt"] := by
  constructor
  · decide
  · decide

/-- C2 counterexample: the indexing filter accepts `"a/b.py"` against the
pattern list `["*.py"]` (Python `fnmatch`: `*` also matches `/`), while
shell-style path-aware glob semantics — the spec's reading, where `*` stays
within one path segment and only `**` crosses segments — rejects it, so the
two predicates are not extensionally equal. -/
theorem c2_counterexample :
    matchesAny "a/b.py" ["*.py"] = true ∧
    specMatchesAny "a/b.py" ["*.py"] = false ∧
    matchesAny "a/b.py" ["*.py"] ≠ specMatchesAny "a/b.py" ["*.py"] := by
  refine ⟨by decide, by decide, by decide⟩

/-- C2 (amended): the glob-filter predicate used during indexing returns
true for a relative path exactly when the path matches at least one pattern
under Python `fnmatch` semantics — where `*` and `?` also match `/`, so
patterns are not path-aware and `**` has no meaning beyond `*` — matching
case-sensitively, for every pattern list and every relative path. -/
theorem c2_fnmatch_any (relPath : String) (globs : List String) :
    matchesAny relPath globs = true ↔
      ∃ pat ∈ globs, fnmatch relPath pat = true := by
  simp [matchesAny, List.any_eq_true]

/-- C3: for every walk, pattern sets and caps, the listing returned by
`index_files` has total `size` at most `maxBytes` and at most `maxFiles`
entries. -/
theorem c3_caps (walk : List FSFile) (includeGlobs excludeGlobs : List String)
    (maxFiles maxBytes : Nat) :
    ((index_files walk includeGlobs excludeGlobs maxFiles maxBytes).map
        FileEntry.size).sum ≤ maxBytes ∧
    (index_files walk includeGlobs excludeGlobs maxFiles maxBytes).length
      ≤ maxFiles := by
  constructor
  · have := buildCapped_sum maxFiles maxBytes
      (sortFiles (walk.filter (passesFilters includeGlobs excludeGlobs))) 0 0
    simpa [index_files] using this
  · have := buildCapped_length maxFiles maxBytes
      (sortFiles (walk.filter (passesFilters includeGlobs excludeGlobs))) 0 0
    simpa [index_files] using this

/-- C4: exclude takes precedence over include — every entry of the listing
returned by `index_files` fails every exclude pattern, for all walks,
include and exclude pattern lists and caps; hence a path matching any
exclude pattern never appears, whatever the include patterns say. -/
theorem c4_exclude_precedence (walk : List FSFile)
    (includeGlobs excludeGlobs : List String) (maxFiles maxBytes : Nat) :
    (index_files walk includeGlobs excludeGlobs maxFiles maxBytes).all
      (fun e => !matchesAny e.path excludeGlobs) = true := by
  rw [List.all_eq_true]
  intro e he
  simp only [index_files] at he
  obtain ⟨f, hf, rfl⟩ := mem_buildCapped he
  have hf' : f ∈ walk.filter (passesFilters includeGlobs excludeGlobs) :=
    mem_sortFiles.mp hf
  have hpass := (List.mem_filter.mp hf').2
  by_cases hm : matchesAny f.path excludeGlobs
  · simp [passesFilters, hm] at hpass
  · simp [toEntry, hm]

/-- C7: for every walk order, pattern sets and caps, the listing returned by
`index_files` is sorted ascending by the `path` field (codepoint
lexicographic order). -/
theorem c7_sorted_by_path (walk : List FSFile)
    (includeGlobs excludeGlobs : List String) (maxFiles maxBytes : Nat) :
    (index_files walk includeGlobs excludeGlobs maxFiles maxBytes).Pairwise
      (fun e₁ e₂ => e₁.path ≤ e₂.path) := by
  simp only [index_files]
  obtain ⟨k, hk⟩ := buildCapped_eq_take maxFiles maxBytes
    (sortFiles (walk.filter (passesFilters includeGlobs excludeGlobs))) 0 0
  rw [hk, List.pairwise_map]
  have hsorted := pairwise_sortFiles
    (walk.filter (passesFilters includeGlobs excludeGlobs))
  exact (List.Pairwise.sublist (List.take_sublist k _) hsorted).imp
    (fun h => fileLe_path_le h)

theorem readBundleBlocks_error_of_missing (fs : List (String × String)) :
    ∀ (sel : List String) (rel : String), rel ∈ sel →
      lookupFile fs rel = none →
      ∃ msg, readBundleBlocks fs sel = .error msg := by
  intro sel
  induction sel with
  | nil => intro rel h; cases h
  | cons r rest ih =>
    intro rel hmem hnone
    simp only [readBundleBlocks]
    cases hl : lookupFile fs r with
    | none => exact ⟨_, rfl⟩
    | some content =>
      rcases List.mem_cons.mp hmem with rfl | hmem'
      · rw [hl] at hnone
        cases hnone
      · obtain ⟨msg, hmsg⟩ := ih rel hmem' hnone
        rw [hmsg]
        exact ⟨msg, rfl⟩

/-- C5: whenever some selected path does not resolve to an existing regular
file, `read_selected_bundle` raises (`FileNotFoundError`) and produces no
bundle at all — the `.error` result carries only the exception message,
never a partial bundle. -/
theorem c5_missing_selection_fails (fs : List (String × String))
    (sel : List String) (rel : String) (hmem : rel ∈ sel)
    (hnone : lookupFile fs rel = none) :
    ∃ msg, read_selected_bundle fs sel = .error msg := by
  obtain ⟨msg, hmsg⟩ := readBundleBlocks_error_of_missing fs sel rel hmem hnone
  refine ⟨msg, ?_⟩
  simp only [read_selected_bundle, hmsg]

/-- C5 witness: the spec's own example — selection `["a.txt", "b.txt"]`
against a root holding only `a.txt` (content `"hi"`) errors out. -/
theorem c5_witness :
    ("b.txt" ∈ ["a.txt", "b.txt"] ∧
      lookupFile [("a.txt", "hi")] "b.txt" = none) ∧
    ∃ msg, read_selected_bundle [("a.txt", "hi")] ["a.txt", "b.txt"]
      = .error msg :=
  ⟨⟨by decide, rfl⟩,
    c5_missing_selection_fails [("a.txt", "hi")] ["a.txt", "b.txt"] "b.txt"
      (by decide) rfl⟩

theorem readBundleBlocks_ok (fs : List (String × String)) :
    ∀ (sel : List String), (∀ rel ∈ sel, (lookupFile fs rel).isSome = true) →
      readBundleBlocks fs sel = .ok (sel.map (fun rel =>
        "# === " ++ rel ++ " ===\n" ++ (lookupFile fs rel).getD "" ++ "\n")) := by
  intro sel
  induction sel with
  | nil => intro _; rfl
  | cons r rest ih =>
    intro h
    have hr := h r (List.mem_cons_self r rest)
    obtain ⟨content, hc⟩ := Option.isSome_iff_exists.mp hr
    simp only [readBundleBlocks, hc]
    rw [ih (fun rel hrel => h rel (List.mem_cons_of_mem r hrel))]
    simp [hc]

/-- C8: when every selected path resolves to an existing regular file,
`read_selected_bundle` returns one text holding, for each selected path in
the caller-supplied order, the header line `# === <rel> ===` followed by
that file's contents, consecutive blocks separated by a blank line (each
block ends in a newline and the blocks are joined with `"\n"`). -/
theorem c8_bundle_order (fs : List (String × String)) (sel : List String)
    (h : ∀ rel ∈ sel, (lookupFile fs rel).isSome = true) :
    read_selected_bundle fs sel = .ok (String.intercalate "\n"
      (sel.map (fun rel =>
        "# === " ++ rel ++ " ===\n" ++ (lookupFile fs rel).getD "" ++ "\n"))) := by
  simp only [read_selected_bundle, readBundleBlocks_ok fs sel h]

/-- C8 witness: the spec's own example — `["a.txt", "b.txt"]` with contents
`"X"` and `"Y"` yields the `a.txt` header and `"X"` before the `b.txt`
header and `"Y"`. -/
theorem c8_witness :
    (∀ rel ∈ ["a.txt", "b.txt"],
      (lookupFile [("a.txt", "X"), ("b.txt", "Y")] rel).isSome = true) ∧
    read_selected_bundle [("a.txt", "X"), ("b.txt", "Y")] ["a.txt", "b.txt"]
      = .ok "# === a.txt ===\nX\n\n# === b.txt ===\nY\n" :=
  ⟨by decide, by
    rw [c8_bundle_order [("a.txt", "X"), ("b.txt", "Y")] ["a.txt", "b.txt"]
      (by decide)]
    rfl⟩

/-- C10: for every root, `read_selected_bundle` on the empty selection
returns the empty string (i.e. `"\n".join([])`) and raises nothing. -/
theorem c10_empty_selection (fs : List (String × String)) :
    read_selected_bundle fs [] = .ok "" := rfl

/-- C6: on any materialization failure, `prepare`'s exception handler
removes the per-request destination directory tree before the error is
surfaced: the failed request still reports the error, and no path under
`workRoot` — however the volume looked before and whatever partial content
materialization created — survives. -/
theorem c6_cleanup_on_failure (vol : List (List String))
    (workRoot : List String) (created : List (List String)) (e : String) :
    (prepare_outcome vol workRoot created (.error e)).1 = .error e ∧
    ((prepare_outcome vol workRoot created (.error e)).2).all
      (fun p => !underRoot workRoot p) = true := by
  constructor
  · rfl
  · rw [List.all_eq_true]
    intro p hp
    exact (List.mem_filter.mp hp).2

/-- C9: after the session-destroy operation (the `cleanup` branch of
`summarize`) runs for a session id, resolving that id fails with the
unknown-session error, and no path of the session's backing directory tree
remains on the volume. -/
theorem c9_destroy_session (vol : List (List String)) (sourceId : String) :
    resolve_session (destroy_session vol sourceId) sourceId
      = .error "unknown source_id or expired" ∧
    (destroy_session vol sourceId).all
      (fun p => !underRoot (workRootOf sourceId) p) = true := by
  constructor
  · have hunder : underRoot (workRootOf sourceId) (manifestPathOf sourceId)
        = true := by
      simp [underRoot, workRootOf, manifestPathOf, List.isPrefixOf]
    have hmem : manifestPathOf sourceId ∉ destroy_session vol sourceId := by
      intro hmem
      have := (List.mem_filter.mp hmem).2
      rw [hunder] at this
      cases this
    simp only [resolve_session]
    rw [if_neg hmem]
  · rw [List.all_eq_true]
    intro p hp
    exact (List.mem_filter.mp hp).2

end DocGen
